import Mathlib

/-!
# go-auth-service: token lifecycle of `internal/handlers/auth_handler.go`

A shallow embedding of the handlers `Register`, `Login`, `RefreshToken` and of their
helpers `generateTokens`, `generateRefreshToken`, `hashToken`, `storeRefreshToken`,
over an explicit model of the two tables created by `database.Migrate`.

Modelling conventions
* Go strings decoded from JSON are Lean `String`s; a byte is `Fin 256`.
* `time.Time` is a number of nanoseconds since the Unix epoch (`Nat`), a
  `time.Duration` a number of nanoseconds; `Unix()` is division by `10^9`.
* The database is the pair of tables of `Migrate`, with their PRIMARY KEY, UNIQUE,
  FOREIGN KEY and VARCHAR(255) constraints checked on insert.  A statement whose error
  the handlers check fails only by violating a constraint.  The DELETE, whose result and
  error the handlers discard, may also fail from outside (`Inputs.execDelete`): the table
  is then as before and the handler goes on.  Columns filled by a database
  default and never used by a handler (`created_at`, `updated_at`) are left out.
* Library functions that are not part of the repository (`sha256.Sum256`, `bcrypt`,
  JWT signing) are parameters, collected in `Crypto`; what a request reads from the
  outside world (clock readings, `rand.Read`, the salted bcrypt digest) is an `Inputs`.
* `utils.RespondWithError` and `utils.RespondWithJSON` (package `internal/utils`, not
  among the sources) are recorded as the two constructors of `Response`.
* `Register` is split at its first write into `registerCheck` and `registerInsert`,
  so that two requests can be interleaved between the lookup and the insert.
-/

namespace AuthService

/-! ## Bytes and `encoding/hex` -/

abbrev Byte := Fin 256

/-- A `[32]byte` value: what `rand.Read` leaves in a 32-byte buffer, and what
`sha256.Sum256` returns. -/
structure Buf32 where
  bytes : List Byte
  size_eq : bytes.length = 32
deriving DecidableEq

/-- The constant `hextable` of `encoding/hex`. -/
def hextable : String := "0123456789abcdef"

/-- Read `hextable[i]`. -/
def hexDigit (i : Nat) : Char := hextable.data.getD i '0'

/-- The characters written by `hex.Encode`: for each byte `v` of the source,
`hextable[v>>4]` then `hextable[v&0x0f]`. -/
def encodeChars : List Byte → List Char
  | [] => []
  | v :: rest => hexDigit (v.val >>> 4) :: hexDigit (v.val &&& 0x0f) :: encodeChars rest

/-- The function `hex.EncodeToString`. -/
def EncodeToString (src : List Byte) : String := String.mk (encodeChars src)

/-- Value of a lower-case hexadecimal digit (inverse of `hexDigit` below 16). -/
def hexValue (c : Char) : Nat := hextable.data.indexOf c

/-- Is `c` one of `0-9a-f`. -/
def isLowerHex (c : Char) : Bool := hextable.data.contains c

/-- Reading of a hexadecimal string, two digits per byte, most significant first. -/
def decodeChars : List Char → List Nat
  | c1 :: c2 :: rest => (16 * hexValue c1 + hexValue c2) :: decodeChars rest
  | _ => []

/-! ## Time -/

/-- A `time.Time`, in nanoseconds since the Unix epoch. -/
abbrev Time := Nat

/-- A `time.Duration`, in nanoseconds. -/
abbrev Duration := Nat

def Second : Duration := 1000000000
def Minute : Duration := 60 * Second
def Hour : Duration := 60 * Minute

/-- The method `Time.Unix`: whole seconds since the epoch. -/
def Unix (t : Time) : Nat := t / Second

/-- The method `Time.Add`. -/
def Add (t : Time) (d : Duration) : Time := t + d

/-- The method `Time.After`: `t.After(u)` reports whether `t` is after `u`. -/
def After (t u : Time) : Bool := decide (u < t)

/-! ## `net/http` status codes -/

def StatusOK : Nat := 200
def StatusBadRequest : Nat := 400
def StatusUnauthorized : Nat := 401
def StatusConflict : Nat := 409
def StatusInternalServerError : Nat := 500

/-! ## `internal/models` -/

/-- A Go `error` value that is not `nil`. -/
abbrev Err := String

namespace models

structure User where
  ID : Nat
  Username : String
  PasswordHash : String
deriving DecidableEq, Repr

structure RegisterRequest where
  Username : String
  Password : String
  ConfirmPassword : String
deriving DecidableEq, Repr

structure LoginRequest where
  Username : String
  Password : String
deriving DecidableEq, Repr

structure AuthResponse where
  Success : Bool
  Message : String
  AccessToken : String
  RefreshToken : String
  User : Option models.User
deriving DecidableEq, Repr

structure RefreshTokenRequest where
  RefreshToken : String
deriving DecidableEq, Repr

structure RefreshToken where
  ID : Nat
  UserID : Nat
  TokenHash : String
  ExpiresAt : Time
deriving DecidableEq, Repr

end models

/-- Modelled from the spec: the package `internal/utils` is not among the sources. What a
handler writes is recorded as the call that writes it, `utils.RespondWithError(w, code,
message)` or `utils.RespondWithJSON(w, code, payload)`: the status and the message or
payload reach the caller as given (spec, sections 6 and 7). -/
inductive Response where
  | RespondWithError (code : Nat) (message : String)
  | RespondWithJSON (code : Nat) (payload : models.AuthResponse)
deriving DecidableEq, Repr

/-- The status code of a response. -/
def Response.code : Response → Nat
  | .RespondWithError c _ => c
  | .RespondWithJSON c _ => c

/-- The access and refresh tokens carried by a response, if any. -/
def Response.tokens : Response → Option (String × String)
  | .RespondWithError _ _ => none
  | .RespondWithJSON _ p => some (p.AccessToken, p.RefreshToken)

/-! ## The tables of `database.Migrate` -/

namespace database

/-- A row of `users`. -/
structure UserRow where
  id : Nat
  username : String
  password_hash : String
deriving DecidableEq, Repr

/-- A row of `refresh_tokens`. -/
structure RefreshTokenRow where
  id : Nat
  user_id : Nat
  token_hash : String
  expires_at : Time
deriving DecidableEq, Repr

/-- The database: both tables and the two SERIAL sequences (next value to hand out). -/
structure DB where
  users : List UserRow
  refresh_tokens : List RefreshTokenRow
  users_id_seq : Nat
  refresh_tokens_id_seq : Nat
deriving DecidableEq, Repr

/-- The database right after `Migrate` on a fresh server. -/
def DB.empty : DB :=
  { users := [], refresh_tokens := [], users_id_seq := 1, refresh_tokens_id_seq := 1 }

/-- Outcome of `QueryRow(...).Scan(...)`. -/
inductive ScanResult (α : Type) where
  | row (a : α)
  | ErrNoRows
  | err (e : Err)
deriving DecidableEq, Repr

/-- First row of a result set, as `QueryRow` takes it. -/
def firstRow {α : Type} : Option α → ScanResult α
  | some a => .row a
  | none => .ErrNoRows

/-- Query `SELECT ... FROM users WHERE username = $1`. -/
def DB.selectUserByUsername (db : DB) (username : String) : ScanResult UserRow :=
  firstRow (db.users.find? fun u => decide (u.username = username))

/-- Query `SELECT username FROM users WHERE id = $1`. -/
def DB.selectUsernameByID (db : DB) (id : Nat) : ScanResult String :=
  firstRow ((db.users.find? fun u => decide (u.id = id)).map fun u => u.username)

/-- Query `SELECT id, user_id, token_hash, expires_at, created_at FROM refresh_tokens
WHERE token_hash = $1`. -/
def DB.selectRefreshTokenByHash (db : DB) (hash : String) : ScanResult RefreshTokenRow :=
  firstRow (db.refresh_tokens.find? fun r => decide (r.token_hash = hash))

/-- Do the constraints of `users` accept a new row: PRIMARY KEY on `id`,
UNIQUE on `username`, VARCHAR(255) on both text columns. -/
def DB.acceptsUser (db : DB) (row : UserRow) : Bool :=
  decide (row.username.length ≤ 255) && decide (row.password_hash.length ≤ 255)
    && db.users.all (fun u => decide (u.id ≠ row.id))
    && db.users.all (fun u => decide (u.username ≠ row.username))

/-- Statement `INSERT INTO users (username, password_hash) VALUES ($1, $2) RETURNING id`.
The id is drawn from the sequence, which advances whether or not the row is accepted. -/
def DB.insertUser (db : DB) (username password_hash : String) : DB × Except Err Nat :=
  let row : UserRow := { id := db.users_id_seq, username := username, password_hash := password_hash }
  if db.acceptsUser row then
    ({ db with users := db.users ++ [row], users_id_seq := db.users_id_seq + 1 }, .ok row.id)
  else
    ({ db with users_id_seq := db.users_id_seq + 1 }, .error "pq: constraint violation on users")

/-- Do the constraints of `refresh_tokens` accept a new row: PRIMARY KEY on `id`,
FOREIGN KEY `user_id -> users(id)`, UNIQUE and VARCHAR(255) on `token_hash`. -/
def DB.acceptsRefreshToken (db : DB) (row : RefreshTokenRow) : Bool :=
  decide (row.token_hash.length ≤ 255)
    && db.refresh_tokens.all (fun r => decide (r.id ≠ row.id))
    && db.refresh_tokens.all (fun r => decide (r.token_hash ≠ row.token_hash))
    && db.users.any (fun u => decide (u.id = row.user_id))

/-- Statement `INSERT INTO refresh_tokens (user_id, token_hash, expires_at)
VALUES ($1, $2, $3)`. -/
def DB.insertRefreshToken (db : DB) (user_id : Nat) (token_hash : String) (expires_at : Time) :
    DB × Option Err :=
  let row : RefreshTokenRow :=
    { id := db.refresh_tokens_id_seq, user_id := user_id, token_hash := token_hash,
      expires_at := expires_at }
  if db.acceptsRefreshToken row then
    ({ db with refresh_tokens := db.refresh_tokens ++ [row],
               refresh_tokens_id_seq := db.refresh_tokens_id_seq + 1 }, none)
  else
    ({ db with refresh_tokens_id_seq := db.refresh_tokens_id_seq + 1 },
      some "pq: constraint violation on refresh_tokens")

/-- The call `db.Exec("DELETE FROM refresh_tokens WHERE id = $1", id)`. When `execErr` is
an error the call returns it and the table is as before; otherwise the rows with that id
are removed. -/
def DB.deleteRefreshToken (db : DB) (execErr : Option Err) (id : Nat) : DB × Option Err :=
  match execErr with
  | some err => (db, some err)
  | none =>
    ({ db with refresh_tokens := db.refresh_tokens.filter fun r => decide (r.id ≠ id) }, none)

/-- The constraints declared by `Migrate`: both primary keys, UNIQUE on `username` and on
`token_hash`, and the foreign key from `refresh_tokens.user_id` to `users.id`. -/
def DB.Valid (db : DB) : Prop :=
  (db.users.map fun u => u.id).Nodup ∧
  (db.users.map fun u => u.username).Nodup ∧
  (db.refresh_tokens.map fun r => r.id).Nodup ∧
  (db.refresh_tokens.map fun r => r.token_hash).Nodup ∧
  ∀ r ∈ db.refresh_tokens, ∃ u ∈ db.users, u.id = r.user_id

instance (db : DB) : Decidable db.Valid := by
  unfold DB.Valid
  infer_instance

end database

/-! ## `internal/handlers` -/

namespace handlers

open database

/-- The `jwt.MapClaims` built by `generateTokens`, one field per key. -/
structure AccessClaims where
  username : String
  userID : Nat
  type : String
  exp : Nat
  iat : Nat
deriving DecidableEq, Repr

/-- Library functions used by the handlers. -/
structure Crypto where
  /-- The digest `sha256.Sum256([]byte(s))`. -/
  Sum256 : String → Buf32
  /-- Does `bcrypt.CompareHashAndPassword(hash, password)` return a nil error. -/
  CompareHashAndPassword : String → String → Bool
  /-- The call `jwt.NewWithClaims(jwt.SigningMethodHS256, claims).SignedString(key)`. -/
  SignedString : AccessClaims → String → Except Err String

/-- What one request reads from outside the program. -/
structure Inputs where
  /-- Result of `bcrypt.GenerateFromPassword(password, bcrypt.DefaultCost)` (salted). -/
  GenerateFromPassword : String → Except Err String
  /-- Result of `rand.Read` on the 32-byte buffer. -/
  randRead : Except Err Buf32
  /-- Error returned by `db.Exec` on the DELETE of `RefreshToken`, `none` when it ran. -/
  execDelete : Option Err
  /-- Reading of `time.Now()` in the expiry test of `RefreshToken`. -/
  nowExpiry : Time
  /-- Reading of `time.Now()` for the claim `exp` in `generateTokens`. -/
  nowExp : Time
  /-- Reading of `time.Now()` for the claim `iat` in `generateTokens` (the later one). -/
  nowIat : Time
  /-- Reading of `time.Now()` in `storeRefreshToken`. -/
  nowStore : Time

/-- The receiver `AuthHandler`, without its database handle. -/
structure AuthHandler where
  crypto : Crypto
  jwtSecret : String

/-- The claims map of `generateTokens`. -/
def accessClaims (username : String) (userID : Nat) (nowExp nowIat : Time) : AccessClaims :=
  { username := username
    userID := userID
    type := "access"
    exp := Unix (Add nowExp (Minute * 15))
    iat := Unix nowIat }

/-- The method `generateRefreshToken`. -/
def generateRefreshToken (inp : Inputs) : String × Option Err :=
  match inp.randRead with
  | .error err => ("", some err)
  | .ok bytes => (EncodeToString bytes.bytes, none)

/-- The method `generateTokens`. -/
def generateTokens (h : AuthHandler) (inp : Inputs) (username : String) (userID : Nat) :
    String × String × Option Err :=
  let claims := accessClaims username userID inp.nowExp inp.nowIat
  match h.crypto.SignedString claims h.jwtSecret with
  | .error err => ("", "", some err)
  | .ok accessTokenString =>
    match generateRefreshToken inp with
    | (_, some err) => ("", "", some err)
    | (refreshToken, none) => (accessTokenString, refreshToken, none)

/-- The method `hashToken`. -/
def hashToken (h : AuthHandler) (token : String) : String :=
  EncodeToString (h.crypto.Sum256 token).bytes

/-- The method `storeRefreshToken`. -/
def storeRefreshToken (h : AuthHandler) (inp : Inputs) (db : DB) (userID : Nat)
    (refreshToken : String) : DB × Option Err :=
  let refreshTokenHash := hashToken h refreshToken
  let expiresAt := Add inp.nowStore (Hour * 24 * 7)
  db.insertRefreshToken userID refreshTokenHash expiresAt

/-- First half of `Register` (lines 32-58): decode, validate, look the username up.
Reads the database, never writes it. -/
def registerCheck (body : Option models.RegisterRequest) (db : DB) :
    Except Response models.RegisterRequest :=
  match body with
  | none => .error (.RespondWithError StatusBadRequest "Invalid request body")
  | some req =>
    if req.Username = "" ∨ req.Password = "" ∨ req.ConfirmPassword = "" then
      .error (.RespondWithError StatusBadRequest "All fields are required")
    else if req.Password ≠ req.ConfirmPassword then
      .error (.RespondWithError StatusBadRequest "Passwords do not match")
    else
      match db.selectUserByUsername req.Username with
      | .row _ => .error (.RespondWithError StatusConflict "Username already exists")
      | .err _ => .error (.RespondWithError StatusInternalServerError "Database error")
      | .ErrNoRows => .ok req

/-- Second half of `Register` (lines 60-101): hash the password, insert the user,
generate and store the tokens. -/
def registerInsert (h : AuthHandler) (inp : Inputs) (req : models.RegisterRequest) (db : DB) :
    DB × Response :=
  match inp.GenerateFromPassword req.Password with
  | .error _ => (db, .RespondWithError StatusInternalServerError "Failed to hash password")
  | .ok hashedPassword =>
    match db.insertUser req.Username hashedPassword with
    | (db1, .error _) => (db1, .RespondWithError StatusInternalServerError "Failed to create user")
    | (db1, .ok userID) =>
      match generateTokens h inp req.Username userID with
      | (_, _, some _) =>
        (db1, .RespondWithError StatusInternalServerError "Failed to generate tokens")
      | (accessToken, refreshToken, none) =>
        match storeRefreshToken h inp db1 userID refreshToken with
        | (db2, some _) =>
          (db2, .RespondWithError StatusInternalServerError "Failed to store refresh token")
        | (db2, none) =>
          (db2, .RespondWithJSON StatusOK
            { Success := true
              Message := "Registration successful"
              AccessToken := accessToken
              RefreshToken := refreshToken
              User := some { ID := userID, Username := req.Username, PasswordHash := "" } })

/-- The handler `Register`. -/
def Register (h : AuthHandler) (inp : Inputs) (body : Option models.RegisterRequest) (db : DB) :
    DB × Response :=
  match registerCheck body db with
  | .error resp => (db, resp)
  | .ok req => registerInsert h inp req db

/-- The handler `Login`. -/
def Login (h : AuthHandler) (inp : Inputs) (body : Option models.LoginRequest) (db : DB) :
    DB × Response :=
  match body with
  | none => (db, .RespondWithError StatusBadRequest "Invalid request body")
  | some req =>
    if req.Username = "" ∨ req.Password = "" then
      (db, .RespondWithError StatusBadRequest "Username and password are required")
    else
      match db.selectUserByUsername req.Username with
      | .ErrNoRows => (db, .RespondWithError StatusUnauthorized "Invalid credentials")
      | .err _ => (db, .RespondWithError StatusInternalServerError "Database error")
      | .row u =>
        let user : models.User :=
          { ID := u.id, Username := u.username, PasswordHash := u.password_hash }
        if h.crypto.CompareHashAndPassword user.PasswordHash req.Password = false then
          (db, .RespondWithError StatusUnauthorized "Invalid credentials")
        else
          match generateTokens h inp user.Username user.ID with
          | (_, _, some _) =>
            (db, .RespondWithError StatusInternalServerError "Failed to generate tokens")
          | (accessToken, refreshToken, none) =>
            match storeRefreshToken h inp db user.ID refreshToken with
            | (db1, some _) =>
              (db1, .RespondWithError StatusInternalServerError "Failed to store refresh token")
            | (db1, none) =>
              (db1, .RespondWithJSON StatusOK
                { Success := true
                  Message := "Login successful"
                  AccessToken := accessToken
                  RefreshToken := refreshToken
                  User := some { ID := user.ID, Username := user.Username, PasswordHash := "" } })

/-- The handler `RefreshToken`. Both calls of `db.Exec` on the DELETE drop what the call
returns (`.1` keeps the database only), as the source does. -/
def RefreshToken (h : AuthHandler) (inp : Inputs) (body : Option models.RefreshTokenRequest)
    (db : DB) : DB × Response :=
  match body with
  | none => (db, .RespondWithError StatusBadRequest "Invalid request body")
  | some req =>
    if req.RefreshToken = "" then
      (db, .RespondWithError StatusBadRequest "Refresh token is required")
    else
      let refreshTokenHash := hashToken h req.RefreshToken
      match db.selectRefreshTokenByHash refreshTokenHash with
      | .ErrNoRows => (db, .RespondWithError StatusUnauthorized "Invalid refresh token")
      | .err _ => (db, .RespondWithError StatusInternalServerError "Database error")
      | .row r =>
        let tokenRecord : models.RefreshToken :=
          { ID := r.id, UserID := r.user_id, TokenHash := r.token_hash, ExpiresAt := r.expires_at }
        if After inp.nowExpiry tokenRecord.ExpiresAt then
          ((db.deleteRefreshToken inp.execDelete tokenRecord.ID).1,
            .RespondWithError StatusUnauthorized "Refresh token expired")
        else
          match db.selectUsernameByID tokenRecord.UserID with
          | .ErrNoRows | .err _ =>
            (db, .RespondWithError StatusInternalServerError "User not found")
          | .row username =>
            match generateTokens h inp username tokenRecord.UserID with
            | (_, _, some _) =>
              (db, .RespondWithError StatusInternalServerError "Failed to generate tokens")
            | (accessToken, newRefreshToken, none) =>
              let db1 := (db.deleteRefreshToken inp.execDelete tokenRecord.ID).1
              match storeRefreshToken h inp db1 tokenRecord.UserID newRefreshToken with
              | (db2, some _) =>
                (db2, .RespondWithError StatusInternalServerError "Failed to store refresh token")
              | (db2, none) =>
                (db2, .RespondWithJSON StatusOK
                  { Success := true
                    Message := "Tokens refreshed successfully"
                    AccessToken := accessToken
                    RefreshToken := newRefreshToken
                    User := some { ID := tokenRecord.UserID, Username := username,
                                   PasswordHash := "" } })

/-! ## Sequential service -/

/-- A request to one of the three public routes of `main.go` that use the database. -/
inductive Request where
  | Register (body : Option models.RegisterRequest)
  | Login (body : Option models.LoginRequest)
  | RefreshToken (body : Option models.RefreshTokenRequest)

/-- Serve one request. -/
def serve (h : AuthHandler) (db : DB) (inp : Inputs) : Request → DB × Response
  | .Register body => Register h inp body db
  | .Login body => Login h inp body db
  | .RefreshToken body => RefreshToken h inp body db

/-- Serve requests one after the other; the database after the last one. -/
def serveAll (h : AuthHandler) : DB → List (Inputs × Request) → DB
  | db, [] => db
  | db, (inp, req) :: rest => serveAll h (serve h db inp req).1 rest

/-- Where a `Register` request stands between its two database steps. -/
inductive RegisterProgress where
  | received (body : Option models.RegisterRequest)
  | checked (req : models.RegisterRequest)
  | answered (resp : Response)
deriving DecidableEq

/-- One database step of a `Register` request: first the existence check, then the
insert with what follows it. An answered request does nothing more. -/
def registerStep (h : AuthHandler) (inp : Inputs) : RegisterProgress → DB → RegisterProgress × DB
  | .received body, db =>
    match registerCheck body db with
    | .error resp => (.answered resp, db)
    | .ok req => (.checked req, db)
  | .checked req, db =>
    (.answered (registerInsert h inp req db).2, (registerInsert h inp req db).1)
  | .answered resp, db => (.answered resp, db)

/-- Two `Register` requests served at once on one database. The schedule tells whose
step comes next: `false` for the first request, `true` for the second. -/
def interleave (h : AuthHandler) (inpA inpB : Inputs) :
    List Bool → RegisterProgress × RegisterProgress × DB → RegisterProgress × RegisterProgress × DB
  | [], state => state
  | false :: rest, (a, b, db) =>
    interleave h inpA inpB rest ((registerStep h inpA a db).1, b, (registerStep h inpA a db).2)
  | true :: rest, (a, b, db) =>
    interleave h inpA inpB rest (a, (registerStep h inpB b db).1, (registerStep h inpB b db).2)

/-- A change of the database made of the statements the handlers execute: the two
inserts and the delete. -/
inductive Statements (h : AuthHandler) : DB → DB → Prop where
  | none (db : DB) : Statements h db db
  | insertUser (db : DB) (username password_hash : String) :
      Statements h db (db.insertUser username password_hash).1
  | storeRefreshToken (inp : Inputs) (db : DB) (userID : Nat) (buf : Buf32) :
      Statements h db (storeRefreshToken h inp db userID (EncodeToString buf.bytes)).1
  | deleteRefreshToken (db : DB) (execErr : Option Err) (id : Nat) :
      Statements h db (db.deleteRefreshToken execErr id).1
  | seq {db1 db2 db3 : DB} :
      Statements h db1 db2 → Statements h db2 db3 → Statements h db1 db3

/-! ## A concrete handler, for evaluating the definitions -/

/-- A stand-in for `sha256.Sum256`: the codes modulo 256 of the first 32 characters,
followed by zeros when there are fewer. -/
def demoSum256 (s : String) : Buf32 :=
  { bytes := ((s.data.map fun (c : Char) => (Fin.ofNat c.toNat : Byte)) ++ List.replicate 32 0).take 32
    size_eq := by simp }

/-- A stand-in for the library functions: the bcrypt digest of `p` is `"bcrypt:" ++ p`,
signing yields the fixed string `"jwt"`. -/
def demoCrypto : Crypto :=
  { Sum256 := demoSum256
    CompareHashAndPassword := fun hash password => decide (hash = "bcrypt:" ++ password)
    SignedString := fun _ _ => .ok "jwt" }

def demoHandler : AuthHandler := { crypto := demoCrypto, jwtSecret := "secret" }

/-- A database holding the single user `alice` (password `pw`) and no refresh token. -/
def aliceDB : DB :=
  { users := [{ id := 1, username := "alice", password_hash := "bcrypt:pw" }]
    refresh_tokens := []
    users_id_seq := 2
    refresh_tokens_id_seq := 1 }

/-- The database `aliceDB` with one refresh-token record of `alice` for the token `t`,
expiring at `expires_at`. -/
def aliceTokenDB (t : String) (expires_at : Time) : DB :=
  { aliceDB with
    refresh_tokens :=
      [{ id := 1, user_id := 1, token_hash := hashToken demoHandler t, expires_at := expires_at }]
    refresh_tokens_id_seq := 2 }

/-- A refresh-token record for the token `t` whose user row is gone. -/
def orphanTokenDB (t : String) (expires_at : Time) : DB :=
  { users := []
    refresh_tokens :=
      [{ id := 1, user_id := 1, token_hash := hashToken demoHandler t, expires_at := expires_at }]
    users_id_seq := 2
    refresh_tokens_id_seq := 2 }

/-- Thirty-two equal bytes. -/
def constBuf (b : Byte) : Buf32 :=
  { bytes := List.replicate 32 b, size_eq := List.length_replicate _ _ }

/-- The refresh token generated when the random source yields `constBuf 7`. -/
def sevens : String := EncodeToString (constBuf 7).bytes

/-- Inputs of a request served at time `now` (all four clock readings equal) whose
random source yields `constBuf b` and whose DELETE runs. -/
def demoInputs (now : Time) (b : Byte) : Inputs :=
  { GenerateFromPassword := fun p => .ok ("bcrypt:" ++ p)
    randRead := .ok (constBuf b)
    execDelete := none
    nowExpiry := now
    nowExp := now
    nowIat := now
    nowStore := now }

/-- The same inputs, with `db.Exec` on the DELETE returning an error. -/
def deleteFails (inp : Inputs) : Inputs :=
  { inp with execDelete := some "pq: canceling statement due to lock timeout" }

/-- The database after `alice` registered on the empty one at time 0 and received the
refresh token `sevens`: her record expires at 604800 s. -/
def registeredDB : DB :=
  serveAll demoHandler DB.empty
    [(demoInputs 0 7,
      .Register (some { Username := "alice", Password := "pw", ConfirmPassword := "pw" }))]

end handlers

/-! ## Facts about `encoding/hex` -/

set_option maxRecDepth 100000 in
theorem hexDigits_value (v : Byte) :
    16 * hexValue (hexDigit (v.val >>> 4)) + hexValue (hexDigit (v.val &&& 0x0f)) = v.val := by
  revert v; decide

set_option maxRecDepth 100000 in
theorem hexDigits_isLowerHex (v : Byte) :
    isLowerHex (hexDigit (v.val >>> 4)) = true ∧
      isLowerHex (hexDigit (v.val &&& 0x0f)) = true := by
  revert v; decide

theorem hexDigits_injective {v w : Byte} (h1 : hexDigit (v.val >>> 4) = hexDigit (w.val >>> 4))
    (h2 : hexDigit (v.val &&& 0x0f) = hexDigit (w.val &&& 0x0f)) : v = w := by
  have hv := hexDigits_value v
  rw [h1, h2, hexDigits_value w] at hv
  exact Fin.ext hv.symm

theorem encodeChars_length (src : List Byte) : (encodeChars src).length = 2 * src.length := by
  induction src with
  | nil => rfl
  | cons v rest ih => simp [encodeChars, ih]; omega

theorem encodeChars_isLowerHex (src : List Byte) :
    ∀ c ∈ encodeChars src, isLowerHex c = true := by
  induction src with
  | nil => simp [encodeChars]
  | cons v rest ih =>
    intro c hc
    simp only [encodeChars, List.mem_cons] at hc
    rcases hc with rfl | rfl | hc
    · exact (hexDigits_isLowerHex v).1
    · exact (hexDigits_isLowerHex v).2
    · exact ih c hc

theorem encodeChars_injective : ∀ {a b : List Byte}, encodeChars a = encodeChars b → a = b
  | [], [], _ => rfl
  | [], w :: _, h => by simp [encodeChars] at h
  | v :: _, [], h => by simp [encodeChars] at h
  | v :: as, w :: bs, h => by
    simp only [encodeChars, List.cons.injEq] at h
    obtain ⟨h1, h2, h3⟩ := h
    rw [hexDigits_injective h1 h2, encodeChars_injective h3]

theorem decodeChars_encodeChars (src : List Byte) :
    decodeChars (encodeChars src) = src.map Fin.val := by
  induction src with
  | nil => rfl
  | cons v rest ih => simp only [encodeChars, decodeChars, ih, List.map_cons, hexDigits_value]

theorem EncodeToString_injective {a b : List Byte} (h : EncodeToString a = EncodeToString b) :
    a = b :=
  encodeChars_injective (congrArg String.data h)

theorem EncodeToString_length (src : List Byte) :
    (EncodeToString src).length = 2 * src.length := by
  simp [EncodeToString, String.length, encodeChars_length]

namespace handlers

open database

/-! ## `generateRefreshToken` -/

/-- C9. On a successful read of 32 random bytes `generateRefreshToken` returns, with a
nil error, the hex encoding of those bytes: 64 characters, each in `0-9a-f`, reading
back to the bytes; different buffers give different tokens; the error is non-nil
exactly when `rand.Read` fails, and the token is then the empty string. -/
theorem generateRefreshToken_spec (inp : Inputs) :
    (∀ buf : Buf32, inp.randRead = .ok buf →
        generateRefreshToken inp = (EncodeToString buf.bytes, none) ∧
        (generateRefreshToken inp).1.length = 64 ∧
        (∀ c ∈ (generateRefreshToken inp).1.data, isLowerHex c = true) ∧
        decodeChars (generateRefreshToken inp).1.data = buf.bytes.map Fin.val) ∧
    (∀ b1 b2 : Buf32, EncodeToString b1.bytes = EncodeToString b2.bytes → b1 = b2) ∧
    ((generateRefreshToken inp).2 ≠ none ↔ ∃ e, inp.randRead = .error e) ∧
    ((generateRefreshToken inp).2 ≠ none → (generateRefreshToken inp).1 = "") := by
  refine ⟨?_, ?_, ?_, ?_⟩
  · intro buf hbuf
    have hgen : generateRefreshToken inp = (EncodeToString buf.bytes, none) := by
      simp [generateRefreshToken, hbuf]
    rw [hgen]
    refine ⟨rfl, ?_, ?_, ?_⟩
    · simp [EncodeToString_length, buf.size_eq]
    · exact encodeChars_isLowerHex buf.bytes
    · exact decodeChars_encodeChars buf.bytes
  · intro b1 b2 h12
    cases b1; cases b2
    simp only [Buf32.mk.injEq]
    exact EncodeToString_injective h12
  · cases hr : inp.randRead <;> simp [generateRefreshToken, hr]
  · cases hr : inp.randRead <;> simp [generateRefreshToken, hr]

/-! ## `generateTokens` -/

theorem accessClaims_fields (username : String) (userID : Nat) (nowExp nowIat : Time) :
    (accessClaims username userID nowExp nowIat).username = username ∧
    (accessClaims username userID nowExp nowIat).userID = userID ∧
    (accessClaims username userID nowExp nowIat).type = "access" :=
  ⟨rfl, rfl, rfl⟩

theorem generateTokens_signs {h : AuthHandler} {inp : Inputs} {username : String}
    {userID : Nat} {a r : String} (hgen : generateTokens h inp username userID = (a, r, none)) :
    h.crypto.SignedString (accessClaims username userID inp.nowExp inp.nowIat) h.jwtSecret =
      .ok a := by
  unfold generateTokens generateRefreshToken at hgen
  cases hs : h.crypto.SignedString (accessClaims username userID inp.nowExp inp.nowIat)
      h.jwtSecret with
  | error e => simp [hs] at hgen
  | ok tok =>
    cases hr : inp.randRead with
    | error e => simp [hs, hr] at hgen
    | ok buf =>
      simp only [hs, hr, Prod.mk.injEq, and_true] at hgen
      rw [hgen.1]

theorem accessClaims_same_reading (username : String) (userID : Nat) (now : Time) :
    (accessClaims username userID now now).exp = (accessClaims username userID now now).iat + 900 := by
  simp only [accessClaims, Unix, Add, Minute, Second]
  omega

theorem accessClaims_exp_le (username : String) (userID : Nat) (nowExp nowIat : Time)
    (hle : nowExp ≤ nowIat) :
    (accessClaims username userID nowExp nowIat).exp ≤
      (accessClaims username userID nowExp nowIat).iat + 900 := by
  have hle2 : @LE.le Nat _ nowExp nowIat := hle
  simp only [accessClaims, Unix, Add, Minute, Second]
  omega

/-- C4, evaluated where the code departs from it. `generateTokens` reads the clock
twice; with the reading for `exp` at 1700000000.999999999 s and the later reading for
`iat` at 1700000001.000000000 s the claims carry the username, the user id and the type
`access`, but `exp` is 899 seconds after `iat`, not 900. -/
theorem accessClaims_straddling_readings :
    accessClaims "alice" 1 1700000000999999999 1700000001000000000 =
        { username := "alice", userID := 1, type := "access",
          exp := 1700000900, iat := 1700000001 } ∧
    (accessClaims "alice" 1 1700000000999999999 1700000001000000000).exp =
      (accessClaims "alice" 1 1700000000999999999 1700000001000000000).iat + 899 := by
  decide

/-! ## `Register`: validation -/

/-- C6. A decoded `Register` request with an empty field or with two different
passwords is answered by an error of status 400, carries no tokens and leaves the
database as it was; a request with three non-empty fields and equal passwords is
never answered with status 400. -/
theorem Register_validation (h : AuthHandler) (inp : Inputs) (req : models.RegisterRequest)
    (db : DB) :
    ((req.Username = "" ∨ req.Password = "" ∨ req.ConfirmPassword = "" ∨
        req.Password ≠ req.ConfirmPassword) →
      (Register h inp (some req) db).1 = db ∧
      (∃ message, (Register h inp (some req) db).2 =
        .RespondWithError StatusBadRequest message) ∧
      (Register h inp (some req) db).2.code = StatusBadRequest ∧
      (Register h inp (some req) db).2.tokens = none) ∧
    ((req.Username ≠ "" ∧ req.Password ≠ "" ∧ req.ConfirmPassword ≠ "" ∧
        req.Password = req.ConfirmPassword) →
      (Register h inp (some req) db).2.code ≠ StatusBadRequest) := by
  constructor
  · intro hbad
    by_cases hempty : req.Username = "" ∨ req.Password = "" ∨ req.ConfirmPassword = ""
    · simp [Register, registerCheck, hempty, Response.code, Response.tokens]
    · have hne : req.Password ≠ req.ConfirmPassword := by tauto
      simp [Register, registerCheck, hempty, hne, Response.code, Response.tokens]
  · rintro ⟨hu, hp, hc, heq⟩
    have hempty : ¬ (req.Username = "" ∨ req.Password = "" ∨ req.ConfirmPassword = "") := by
      tauto
    have hne : ¬ (req.Password ≠ req.ConfirmPassword) := fun hn => hn heq
    simp only [Register, registerCheck, if_neg hempty, if_neg hne]
    cases db.selectUserByUsername req.Username with
    | row u => simp [Response.code, StatusConflict, StatusBadRequest]
    | err e => simp [Response.code, StatusInternalServerError, StatusBadRequest]
    | ErrNoRows =>
      simp only [registerInsert]
      cases inp.GenerateFromPassword req.Password with
      | error e => simp [Response.code, StatusInternalServerError, StatusBadRequest]
      | ok hashed =>
        simp only
        rcases hins : db.insertUser req.Username hashed with ⟨db1, _ | userID⟩
        · simp [Response.code, StatusInternalServerError, StatusBadRequest]
        · simp only
          rcases hgen : generateTokens h inp req.Username userID with ⟨a, r, _ | e⟩
          · simp only
            rcases hst : storeRefreshToken h inp db1 userID r with ⟨db2, _ | e⟩
            · simp [Response.code, StatusOK, StatusBadRequest]
            · simp [Response.code, StatusInternalServerError, StatusBadRequest]
          · simp [Response.code, StatusInternalServerError, StatusBadRequest]

/-! ## Lookups -/

theorem selectUserByUsername_none {db : DB} {username : String}
    (hno : ∀ u ∈ db.users, u.username ≠ username) :
    db.selectUserByUsername username = .ErrNoRows := by
  have hfind : db.users.find? (fun u => decide (u.username = username)) = none := by
    rw [List.find?_eq_none]
    intro u hu
    simpa using hno u hu
  simp [DB.selectUserByUsername, hfind, firstRow]

theorem selectUserByUsername_some {db : DB} {username : String} {u : UserRow}
    (hmem : u ∈ db.users) (hname : u.username = username) :
    ∃ v, db.selectUserByUsername username = .row v ∧ v ∈ db.users ∧ v.username = username := by
  cases hfind : db.users.find? (fun u => decide (u.username = username)) with
  | none =>
    rw [List.find?_eq_none] at hfind
    exact absurd hname (by simpa using hfind u hmem)
  | some v =>
    refine ⟨v, by simp [DB.selectUserByUsername, hfind, firstRow],
      List.mem_of_find?_eq_some hfind, ?_⟩
    simpa using List.find?_some hfind

theorem selectRefreshTokenByHash_none {db : DB} {hash : String}
    (hno : ∀ r ∈ db.refresh_tokens, r.token_hash ≠ hash) :
    db.selectRefreshTokenByHash hash = .ErrNoRows := by
  have hfind : db.refresh_tokens.find? (fun r => decide (r.token_hash = hash)) = none := by
    rw [List.find?_eq_none]
    intro r hr
    simpa using hno r hr
  simp [DB.selectRefreshTokenByHash, hfind, firstRow]

theorem selectRefreshTokenByHash_mem {db : DB} {hash : String} {r : RefreshTokenRow}
    (hsel : db.selectRefreshTokenByHash hash = .row r) :
    r ∈ db.refresh_tokens ∧ r.token_hash = hash := by
  unfold DB.selectRefreshTokenByHash at hsel
  cases hfind : db.refresh_tokens.find? (fun r => decide (r.token_hash = hash)) with
  | none => simp [hfind, firstRow] at hsel
  | some v =>
    simp only [hfind, firstRow, ScanResult.row.injEq] at hsel
    subst hsel
    exact ⟨List.mem_of_find?_eq_some hfind, by simpa using List.find?_some hfind⟩

theorem selectRefreshTokenByHash_unique {db : DB} {hash : String} {r : RefreshTokenRow}
    (hkey : (db.refresh_tokens.map fun r => r.token_hash).Nodup)
    (hmem : r ∈ db.refresh_tokens) (hhash : r.token_hash = hash) :
    db.selectRefreshTokenByHash hash = .row r := by
  cases hfind : db.refresh_tokens.find? (fun r => decide (r.token_hash = hash)) with
  | none =>
    rw [List.find?_eq_none] at hfind
    exact absurd hhash (by simpa using hfind r hmem)
  | some v =>
    have hv : v.token_hash = hash := by simpa using List.find?_some hfind
    have hvr : v = r :=
      List.inj_on_of_nodup_map hkey (List.mem_of_find?_eq_some hfind) hmem (hv.trans hhash.symm)
    simp [DB.selectRefreshTokenByHash, hfind, firstRow, hvr]

theorem selectUsernameByID_none {db : DB} {id : Nat} (hno : ∀ u ∈ db.users, u.id ≠ id) :
    db.selectUsernameByID id = .ErrNoRows := by
  have hfind : db.users.find? (fun u => decide (u.id = id)) = none := by
    rw [List.find?_eq_none]
    intro u hu
    simpa using hno u hu
  simp [DB.selectUsernameByID, hfind, firstRow]

theorem deleteRefreshToken_eq_filter {db : DB} {r : RefreshTokenRow}
    (hpk : (db.refresh_tokens.map fun r => r.id).Nodup) (hmem : r ∈ db.refresh_tokens) :
    (db.deleteRefreshToken none r.id).1.refresh_tokens =
      db.refresh_tokens.filter fun x => decide (x ≠ r) := by
  simp only [DB.deleteRefreshToken]
  apply List.filter_congr
  intro x hx
  by_cases hxr : x = r
  · simp [hxr]
  · have hid : x.id ≠ r.id := fun hid => hxr (List.inj_on_of_nodup_map hpk hx hmem hid)
    simp [hxr, hid]

/-! ## `Login` -/

/-- C2, a request the claim does not cover. No user is stored, so no user has the
empty username, yet `Login("", "pw")` is answered 400 "Username and password are
required", not 401 "Invalid credentials". -/
theorem Login_empty_username :
    (∀ u ∈ DB.empty.users, u.username ≠ "") ∧
    Login demoHandler (demoInputs 0 0) (some { Username := "", Password := "pw" }) DB.empty =
      (DB.empty, .RespondWithError StatusBadRequest "Username and password are required") := by
  decide

/-- C2, amended. For a decoded `Login` request with a non-empty username and a non-empty
password: if no stored user has the username, or the user found has a hash the password
fails to verify against, the outcome is in both cases the same pair, the database
unchanged with the response 401 "Invalid credentials", which carries no tokens. -/
theorem Login_invalid_credentials (h : AuthHandler) (inp : Inputs) (req : models.LoginRequest)
    (db : DB) (hu : req.Username ≠ "") (hp : req.Password ≠ "")
    (hfail : (∀ u ∈ db.users, u.username ≠ req.Username) ∨
      ∃ u, db.selectUserByUsername req.Username = .row u ∧
        h.crypto.CompareHashAndPassword u.password_hash req.Password = false) :
    Login h inp (some req) db =
        (db, .RespondWithError StatusUnauthorized "Invalid credentials") ∧
    (Login h inp (some req) db).2.tokens = none := by
  have hmain : Login h inp (some req) db =
      (db, .RespondWithError StatusUnauthorized "Invalid credentials") := by
    have hguard : ¬ (req.Username = "" ∨ req.Password = "") := by tauto
    rcases hfail with hno | ⟨u, hsel, hcmp⟩
    · simp only [Login, if_neg hguard, selectUserByUsername_none hno]
    · simp only [Login, if_neg hguard, hsel, hcmp, if_true]
  rw [hmain]
  exact ⟨rfl, rfl⟩

/-- Witness for `Login_invalid_credentials`, in both cases: an unknown user, then a
known user with a wrong password. -/
theorem Login_invalid_credentials_witness :
    (Login demoHandler (demoInputs 0 0) (some { Username := "bob", Password := "pw" }) DB.empty =
        (DB.empty, .RespondWithError StatusUnauthorized "Invalid credentials") ∧
      (Login demoHandler (demoInputs 0 0) (some { Username := "bob", Password := "pw" })
        DB.empty).2.tokens = none) ∧
    (Login demoHandler (demoInputs 0 0) (some { Username := "alice", Password := "wrong" })
        { DB.empty with users := [{ id := 1, username := "alice", password_hash := "bcrypt:pw" }] } =
        ({ DB.empty with users := [{ id := 1, username := "alice", password_hash := "bcrypt:pw" }] },
          .RespondWithError StatusUnauthorized "Invalid credentials") ∧
      (Login demoHandler (demoInputs 0 0) (some { Username := "alice", Password := "wrong" })
        { DB.empty with users := [{ id := 1, username := "alice", password_hash := "bcrypt:pw" }]
          }).2.tokens = none) :=
  ⟨Login_invalid_credentials demoHandler (demoInputs 0 0) { Username := "bob", Password := "pw" }
      DB.empty (by decide) (by decide) (Or.inl (by decide)),
    Login_invalid_credentials demoHandler (demoInputs 0 0)
      { Username := "alice", Password := "wrong" }
      { DB.empty with users := [{ id := 1, username := "alice", password_hash := "bcrypt:pw" }] }
      (by decide) (by decide)
      (Or.inr ⟨{ id := 1, username := "alice", password_hash := "bcrypt:pw" }, by decide⟩)⟩

/-! ## `RefreshToken`: failures -/

/-- C3, the three failures told apart. At time 100 the token `tok` is answered
401 "Invalid refresh token" when no record matches, 401 "Refresh token expired" when its
record expired at 50, and 500 "User not found" when its record is live but its user row
is missing: three different responses. -/
theorem RefreshToken_failures_differ :
    (RefreshToken demoHandler (demoInputs 100 0) (some { RefreshToken := "tok" }) aliceDB).2 =
      .RespondWithError StatusUnauthorized "Invalid refresh token" ∧
    (RefreshToken demoHandler (demoInputs 100 0) (some { RefreshToken := "tok" })
        (aliceTokenDB "tok" 50)).2 =
      .RespondWithError StatusUnauthorized "Refresh token expired" ∧
    (RefreshToken demoHandler (demoInputs 100 0) (some { RefreshToken := "tok" })
        (orphanTokenDB "tok" 500)).2 =
      .RespondWithError StatusInternalServerError "User not found" := by
  decide

/-- C3, amended. For a non-empty refresh token `t`: when no record has its digest the
answer is 401 "Invalid refresh token"; when the record found is expired the answer is
401 "Refresh token expired"; when the record found is live and no user has its
`user_id` the answer is 500 "User not found". -/
theorem RefreshToken_failures (h : AuthHandler) (inp : Inputs) (db : DB) (t : String)
    (ht : t ≠ "") :
    ((∀ r ∈ db.refresh_tokens, r.token_hash ≠ hashToken h t) →
      RefreshToken h inp (some { RefreshToken := t }) db =
        (db, .RespondWithError StatusUnauthorized "Invalid refresh token")) ∧
    (∀ r, db.selectRefreshTokenByHash (hashToken h t) = .row r →
      r.expires_at < inp.nowExpiry →
      (RefreshToken h inp (some { RefreshToken := t }) db).2 =
        .RespondWithError StatusUnauthorized "Refresh token expired") ∧
    (∀ r, db.selectRefreshTokenByHash (hashToken h t) = .row r →
      inp.nowExpiry ≤ r.expires_at →
      (∀ u ∈ db.users, u.id ≠ r.user_id) →
      RefreshToken h inp (some { RefreshToken := t }) db =
        (db, .RespondWithError StatusInternalServerError "User not found")) := by
  refine ⟨?_, ?_, ?_⟩
  · intro hno
    simp only [RefreshToken, if_neg ht, selectRefreshTokenByHash_none hno]
  · intro r hsel hexp
    have hafter : After inp.nowExpiry r.expires_at = true := by simpa [After] using hexp
    simp only [RefreshToken, if_neg ht, hsel, hafter, if_true]
  · intro r hsel hlive hno
    have hafter : After inp.nowExpiry r.expires_at = false := by simpa [After] using hlive
    simp [RefreshToken, if_neg ht, hsel, hafter, selectUsernameByID_none hno]

/-- Witness for `RefreshToken_failures`: the expired record of `aliceTokenDB`. -/
theorem RefreshToken_failures_witness :
    "tok" ≠ "" ∧
    (RefreshToken demoHandler (demoInputs 100 0) (some { RefreshToken := "tok" })
        (aliceTokenDB "tok" 50)).2 =
      .RespondWithError StatusUnauthorized "Refresh token expired" :=
  ⟨by decide,
    (RefreshToken_failures demoHandler (demoInputs 100 0) (aliceTokenDB "tok" 50) "tok"
      (by decide)).2.1
      { id := 1, user_id := 1, token_hash := hashToken demoHandler "tok", expires_at := 50 }
      (by decide) (by decide)⟩

/-- What `RefreshToken` does with an expired record when the DELETE runs. In a database
satisfying the constraints of `Migrate`, let `r` be a record whose `token_hash` is the
digest of a non-empty token `t`. If `r.expires_at` is before the clock reading and
`db.Exec` returns no error, `RefreshToken(t)` answers 401 "Refresh token expired" with
no tokens, removes `r` and only `r` from `refresh_tokens`, and leaves `users` as it was.
If `r.expires_at` is not before the reading (equal included) the answer is not the
expired one. -/
theorem RefreshToken_expired (h : AuthHandler) (inp : Inputs) (db : DB) (t : String)
    (r : RefreshTokenRow) (ht : t ≠ "") (hv : db.Valid) (hmem : r ∈ db.refresh_tokens)
    (hhash : r.token_hash = hashToken h t) :
    (r.expires_at < inp.nowExpiry → inp.execDelete = none →
      (RefreshToken h inp (some { RefreshToken := t }) db).2 =
        .RespondWithError StatusUnauthorized "Refresh token expired" ∧
      (RefreshToken h inp (some { RefreshToken := t }) db).2.tokens = none ∧
      (RefreshToken h inp (some { RefreshToken := t }) db).1.users = db.users ∧
      (RefreshToken h inp (some { RefreshToken := t }) db).1.refresh_tokens =
        db.refresh_tokens.filter (fun x => decide (x ≠ r)) ∧
      r ∉ (RefreshToken h inp (some { RefreshToken := t }) db).1.refresh_tokens) ∧
    (inp.nowExpiry ≤ r.expires_at →
      (RefreshToken h inp (some { RefreshToken := t }) db).2 ≠
        .RespondWithError StatusUnauthorized "Refresh token expired") := by
  obtain ⟨_, _, hpk, hkey, _⟩ := hv
  have hsel := selectRefreshTokenByHash_unique hkey hmem hhash
  constructor
  · intro hexp hdel
    have hafter : After inp.nowExpiry r.expires_at = true := by simpa [After] using hexp
    have hrun : RefreshToken h inp (some { RefreshToken := t }) db =
        ((db.deleteRefreshToken none r.id).1,
          .RespondWithError StatusUnauthorized "Refresh token expired") := by
      simp only [RefreshToken, if_neg ht, hsel, hafter, if_true, hdel]
    rw [hrun]
    refine ⟨rfl, rfl, rfl, deleteRefreshToken_eq_filter hpk hmem, ?_⟩
    rw [deleteRefreshToken_eq_filter hpk hmem]
    simp
  · intro hlive
    have hafter : After inp.nowExpiry r.expires_at = false := by simpa [After] using hlive
    simp only [RefreshToken, if_neg ht, hsel, hafter]
    cases db.selectUsernameByID r.user_id with
    | ErrNoRows => simp [StatusInternalServerError, StatusUnauthorized]
    | err e => simp [StatusInternalServerError, StatusUnauthorized]
    | row username =>
      simp only
      rcases hgen : generateTokens h inp username r.user_id with ⟨a, n, _ | e⟩
      · simp only
        rcases hst : storeRefreshToken h inp (db.deleteRefreshToken inp.execDelete r.id).1
            r.user_id n with ⟨db2, _ | e⟩
        · simp
        · simp [StatusInternalServerError, StatusUnauthorized]
      · simp [StatusInternalServerError, StatusUnauthorized]

/-- An instance of `RefreshToken_expired`: the record of `aliceTokenDB "tok" 50` at time
100, and at time 50. -/
theorem RefreshToken_expired_instance :
    (aliceTokenDB "tok" 50).Valid ∧
    (RefreshToken demoHandler (demoInputs 100 0) (some { RefreshToken := "tok" })
        (aliceTokenDB "tok" 50)).1.refresh_tokens = [] ∧
    (RefreshToken demoHandler (demoInputs 50 0) (some { RefreshToken := "tok" })
        (aliceTokenDB "tok" 50)).2 ≠
      .RespondWithError StatusUnauthorized "Refresh token expired" :=
  ⟨by decide,
    ((RefreshToken_expired demoHandler (demoInputs 100 0) (aliceTokenDB "tok" 50) "tok"
      { id := 1, user_id := 1, token_hash := hashToken demoHandler "tok", expires_at := 50 }
      (by decide) (by decide) (by decide) (by decide)).1 (by decide) rfl).2.2.2.1,
    (RefreshToken_expired demoHandler (demoInputs 50 0) (aliceTokenDB "tok" 50) "tok"
      { id := 1, user_id := 1, token_hash := hashToken demoHandler "tok", expires_at := 50 }
      (by decide) (by decide) (by decide) (by decide)).2 (by decide)⟩

/-- C5, evaluated where the code departs from it. `alice` registered at time 0 and holds
the refresh token `sevens`, whose record expires at 604800 s. One nanosecond later she
sends `RefreshToken(sevens)` and `db.Exec` on the DELETE returns an error, which line 220
discards: the answer is 401 "Refresh token expired" and the database is as before, the
expired record still in `refresh_tokens`. -/
theorem RefreshToken_expired_delete_fails :
    registeredDB.refresh_tokens =
      [{ id := 1, user_id := 1, token_hash := hashToken demoHandler sevens,
         expires_at := 604800 * Second }] ∧
    RefreshToken demoHandler (deleteFails (demoInputs (604800 * Second + 1) 0))
        (some { RefreshToken := sevens }) registeredDB =
      (registeredDB, .RespondWithError StatusUnauthorized "Refresh token expired") := by
  decide

/-! ## Which statements a handler executes -/

theorem generateTokens_ok {h : AuthHandler} {inp : Inputs} {username : String} {userID : Nat}
    {a r : String} (hgen : generateTokens h inp username userID = (a, r, none)) :
    ∃ buf : Buf32, inp.randRead = .ok buf ∧ r = EncodeToString buf.bytes := by
  unfold generateTokens generateRefreshToken at hgen
  cases hs : h.crypto.SignedString (accessClaims username userID inp.nowExp inp.nowIat)
      h.jwtSecret with
  | error e => simp [hs] at hgen
  | ok tok =>
    cases hr : inp.randRead with
    | error e => simp [hs, hr] at hgen
    | ok buf =>
      simp only [hs, hr, Prod.mk.injEq, and_true] at hgen
      exact ⟨buf, rfl, hgen.2.symm⟩

theorem Register_statements (h : AuthHandler) (inp : Inputs)
    (body : Option models.RegisterRequest) (db : DB) :
    Statements h db (Register h inp body db).1 := by
  unfold Register
  cases hc : registerCheck body db with
  | error resp => exact .none db
  | ok req =>
    simp only [registerInsert]
    cases inp.GenerateFromPassword req.Password with
    | error e => exact .none db
    | ok hashed =>
      simp only
      have hins := Statements.insertUser (h := h) db req.Username hashed
      rcases hdb : db.insertUser req.Username hashed with ⟨db1, _ | userID⟩
      · rw [hdb] at hins; exact hins
      · rw [hdb] at hins
        simp only
        rcases hgen : generateTokens h inp req.Username userID with ⟨a, r, _ | e⟩
        · obtain ⟨buf, _, rfl⟩ := generateTokens_ok hgen
          simp only
          have hst := Statements.storeRefreshToken (h := h) inp db1 userID buf
          rcases hdb2 : storeRefreshToken h inp db1 userID (EncodeToString buf.bytes) with
            ⟨db2, _ | e⟩ <;> (rw [hdb2] at hst; exact .seq hins hst)
        · exact hins

theorem Login_statements (h : AuthHandler) (inp : Inputs)
    (body : Option models.LoginRequest) (db : DB) :
    Statements h db (Login h inp body db).1 := by
  unfold Login
  cases body with
  | none => exact .none db
  | some req =>
    simp only
    split
    · exact .none db
    · cases db.selectUserByUsername req.Username with
      | ErrNoRows => exact .none db
      | err e => exact .none db
      | row u =>
        simp only
        split
        · exact .none db
        · rcases hgen : generateTokens h inp u.username u.id with ⟨a, r, _ | e⟩
          · obtain ⟨buf, _, rfl⟩ := generateTokens_ok hgen
            simp only
            have hst := Statements.storeRefreshToken (h := h) inp db u.id buf
            rcases hdb2 : storeRefreshToken h inp db u.id (EncodeToString buf.bytes) with
              ⟨db2, _ | e⟩ <;> (rw [hdb2] at hst; exact hst)
          · exact .none db

theorem RefreshToken_statements (h : AuthHandler) (inp : Inputs)
    (body : Option models.RefreshTokenRequest) (db : DB) :
    Statements h db (RefreshToken h inp body db).1 := by
  unfold RefreshToken
  cases body with
  | none => exact .none db
  | some req =>
    simp only
    split
    · exact .none db
    · cases db.selectRefreshTokenByHash (hashToken h req.RefreshToken) with
      | ErrNoRows => exact .none db
      | err e => exact .none db
      | row r =>
        simp only
        split
        · exact .deleteRefreshToken db inp.execDelete r.id
        · cases db.selectUsernameByID r.user_id with
          | ErrNoRows => exact .none db
          | err e => exact .none db
          | row username =>
            simp only
            rcases hgen : generateTokens h inp username r.user_id with ⟨a, n, _ | e⟩
            · obtain ⟨buf, _, rfl⟩ := generateTokens_ok hgen
              simp only
              have hst := Statements.storeRefreshToken (h := h) inp
                (db.deleteRefreshToken inp.execDelete r.id).1 r.user_id buf
              rcases hdb2 : storeRefreshToken h inp (db.deleteRefreshToken inp.execDelete r.id).1
                  r.user_id (EncodeToString buf.bytes) with ⟨db2, _ | e⟩ <;>
                (rw [hdb2] at hst; exact .seq (.deleteRefreshToken db inp.execDelete r.id) hst)
            · exact .none db

theorem serve_statements (h : AuthHandler) (db : DB) (inp : Inputs) (req : Request) :
    Statements h db (serve h db inp req).1 := by
  cases req with
  | Register body => exact Register_statements h inp body db
  | Login body => exact Login_statements h inp body db
  | RefreshToken body => exact RefreshToken_statements h inp body db

/-! ## The constraints of `Migrate` are kept -/

theorem nodup_map_append_singleton {α β : Type} (f : α → β) (l : List α) (x : α)
    (hl : (l.map f).Nodup) (hx : ∀ y ∈ l, f y ≠ f x) : ((l ++ [x]).map f).Nodup := by
  rw [List.map_append, List.nodup_append]
  refine ⟨hl, by simp, ?_⟩
  intro a ha1 ha2
  simp only [List.map_cons, List.map_nil, List.mem_singleton] at ha2
  obtain ⟨y, hy, rfl⟩ := List.mem_map.mp ha1
  exact hx y hy ha2

theorem nodup_map_filter {α β : Type} (f : α → β) (p : α → Bool) (l : List α)
    (hl : (l.map f).Nodup) : ((l.filter p).map f).Nodup :=
  List.Nodup.sublist (List.Sublist.map f (List.filter_sublist l)) hl

theorem insertUser_accept {db : DB} {username password_hash : String}
    (hacc : db.acceptsUser
      { id := db.users_id_seq, username := username, password_hash := password_hash } = true) :
    db.insertUser username password_hash =
      ({ db with
          users := db.users ++
            [{ id := db.users_id_seq, username := username, password_hash := password_hash }]
          users_id_seq := db.users_id_seq + 1 }, .ok db.users_id_seq) := by
  simp [DB.insertUser, hacc]

theorem insertUser_reject {db : DB} {username password_hash : String}
    (hacc : ¬ db.acceptsUser
      { id := db.users_id_seq, username := username, password_hash := password_hash } = true) :
    db.insertUser username password_hash =
      ({ db with users_id_seq := db.users_id_seq + 1 },
        .error "pq: constraint violation on users") := by
  simp [DB.insertUser, hacc]

theorem insertRefreshToken_accept {db : DB} {user_id : Nat} {token_hash : String}
    {expires_at : Time}
    (hacc : db.acceptsRefreshToken
      { id := db.refresh_tokens_id_seq, user_id := user_id, token_hash := token_hash,
        expires_at := expires_at } = true) :
    db.insertRefreshToken user_id token_hash expires_at =
      ({ db with
          refresh_tokens := db.refresh_tokens ++
            [{ id := db.refresh_tokens_id_seq, user_id := user_id, token_hash := token_hash,
               expires_at := expires_at }]
          refresh_tokens_id_seq := db.refresh_tokens_id_seq + 1 }, none) := by
  simp [DB.insertRefreshToken, hacc]

theorem insertRefreshToken_reject {db : DB} {user_id : Nat} {token_hash : String}
    {expires_at : Time}
    (hacc : ¬ db.acceptsRefreshToken
      { id := db.refresh_tokens_id_seq, user_id := user_id, token_hash := token_hash,
        expires_at := expires_at } = true) :
    db.insertRefreshToken user_id token_hash expires_at =
      ({ db with refresh_tokens_id_seq := db.refresh_tokens_id_seq + 1 },
        some "pq: constraint violation on refresh_tokens") := by
  simp [DB.insertRefreshToken, hacc]

theorem insertUser_valid {db : DB} (username password_hash : String) (hv : db.Valid) :
    (db.insertUser username password_hash).1.Valid := by
  obtain ⟨h1, h2, h3, h4, h5⟩ := hv
  by_cases hacc : db.acceptsUser
      { id := db.users_id_seq, username := username, password_hash := password_hash } = true
  on_goal 2 => rw [insertUser_reject hacc]
  on_goal 1 => rw [insertUser_accept hacc]
  case pos =>
    simp only [DB.acceptsUser, Bool.and_eq_true, List.all_eq_true, decide_eq_true_eq] at hacc
    obtain ⟨⟨_, hid⟩, hname⟩ := hacc
    refine ⟨nodup_map_append_singleton _ _ _ h1 hid, nodup_map_append_singleton _ _ _ h2 hname,
      h3, h4, ?_⟩
    intro r hr
    obtain ⟨u, hu, hur⟩ := h5 r hr
    exact ⟨u, List.mem_append_left _ hu, hur⟩
  case neg => exact ⟨h1, h2, h3, h4, h5⟩

theorem insertRefreshToken_valid {db : DB} (user_id : Nat) (token_hash : String)
    (expires_at : Time) (hv : db.Valid) :
    (db.insertRefreshToken user_id token_hash expires_at).1.Valid := by
  obtain ⟨h1, h2, h3, h4, h5⟩ := hv
  by_cases hacc : db.acceptsRefreshToken
      { id := db.refresh_tokens_id_seq, user_id := user_id, token_hash := token_hash,
        expires_at := expires_at } = true
  on_goal 2 => rw [insertRefreshToken_reject hacc]
  on_goal 1 => rw [insertRefreshToken_accept hacc]
  case pos =>
    simp only [DB.acceptsRefreshToken, Bool.and_eq_true, List.all_eq_true, List.any_eq_true,
      decide_eq_true_eq] at hacc
    obtain ⟨⟨⟨_, hid⟩, hhash⟩, u, hu, hfk⟩ := hacc
    refine ⟨h1, h2, nodup_map_append_singleton _ _ _ h3 hid,
      nodup_map_append_singleton _ _ _ h4 hhash, ?_⟩
    intro r hr
    rcases List.mem_append.mp hr with hr | hr
    · exact h5 r hr
    · rw [List.mem_singleton] at hr
      subst hr
      exact ⟨u, hu, hfk⟩
  case neg => exact ⟨h1, h2, h3, h4, h5⟩

theorem deleteRefreshToken_valid {db : DB} (execErr : Option Err) (id : Nat)
    (hv : db.Valid) : (db.deleteRefreshToken execErr id).1.Valid := by
  cases execErr with
  | some err => exact hv
  | none =>
  obtain ⟨h1, h2, h3, h4, h5⟩ := hv
  refine ⟨h1, h2, nodup_map_filter _ _ _ h3, nodup_map_filter _ _ _ h4, ?_⟩
  intro r hr
  exact h5 r (List.mem_filter.mp hr).1

theorem Statements_valid {h : AuthHandler} {db db2 : DB} (hst : Statements h db db2)
    (hv : db.Valid) : db2.Valid := by
  induction hst with
  | none db => exact hv
  | insertUser db username password_hash => exact insertUser_valid username password_hash hv
  | storeRefreshToken inp db userID buf => exact insertRefreshToken_valid _ _ _ hv
  | deleteRefreshToken db execErr id => exact deleteRefreshToken_valid execErr id hv
  | seq _ _ ih1 ih2 => exact ih2 (ih1 hv)

theorem empty_valid : DB.empty.Valid := by decide

theorem serveAll_valid (h : AuthHandler) (reqs : List (Inputs × Request)) (db : DB)
    (hv : db.Valid) : (serveAll h db reqs).Valid := by
  induction reqs generalizing db with
  | nil => exact hv
  | cons first rest ih =>
    obtain ⟨inp, req⟩ := first
    exact ih _ (Statements_valid (serve_statements h db inp req) hv)

/-! ## `hashToken` and `storeRefreshToken` -/

/-- C7. A decoded `Register` request with three non-empty fields and equal passwords
whose username is that of a stored user is answered 409 "Username already exists",
carries no tokens and leaves the database as it was; and in every database reached
from the empty one by serving requests one after the other, the usernames of the
stored users are pairwise different. -/
theorem Register_conflict (h : AuthHandler) (inp : Inputs) (req : models.RegisterRequest)
    (db : DB) (reqs : List (Inputs × Request)) :
    ((req.Username ≠ "" ∧ req.Password ≠ "" ∧ req.ConfirmPassword ≠ "" ∧
        req.Password = req.ConfirmPassword ∧ ∃ u ∈ db.users, u.username = req.Username) →
      Register h inp (some req) db =
          (db, .RespondWithError StatusConflict "Username already exists") ∧
      (Register h inp (some req) db).2.tokens = none) ∧
    ((serveAll h DB.empty reqs).users.map fun u => u.username).Nodup := by
  constructor
  · rintro ⟨hu, hp, hc, heq, u, hmem, hname⟩
    have hempty : ¬ (req.Username = "" ∨ req.Password = "" ∨ req.ConfirmPassword = "") := by
      tauto
    have hne : ¬ (req.Password ≠ req.ConfirmPassword) := fun hn => hn heq
    obtain ⟨v, hsel, _, _⟩ := selectUserByUsername_some hmem hname
    have hrun : Register h inp (some req) db =
        (db, .RespondWithError StatusConflict "Username already exists") := by
      simp only [Register, registerCheck, if_neg hempty, if_neg hne, hsel]
    rw [hrun]
    exact ⟨rfl, rfl⟩
  · exact (serveAll_valid h reqs DB.empty empty_valid).2.1

/-! ## `Register`: two requests at once -/

theorem registerStep_twice (h : AuthHandler) (inp : Inputs)
    (body : Option models.RegisterRequest) (db : DB) :
    registerStep h inp (registerStep h inp (.received body) db).1
        (registerStep h inp (.received body) db).2 =
      (.answered (Register h inp body db).2, (Register h inp body db).1) := by
  simp only [registerStep, Register]
  cases registerCheck body db <;> rfl

/-- C10, evaluated where the code departs from it. Two requests register `alice` on the
empty database and each runs its existence check before either inserts (schedule: first,
second, first, second). The first is answered 200; the insert of the second violates
UNIQUE(username) and it is answered 500 "Failed to create user", not 409; one user is
stored. Served one after the other, the second is answered 409. -/
theorem Register_interleaved :
    interleave demoHandler (demoInputs 0 1) (demoInputs 0 2) [false, true, false, true]
        (.received (some { Username := "alice", Password := "pw1", ConfirmPassword := "pw1" }),
         .received (some { Username := "alice", Password := "pw2", ConfirmPassword := "pw2" }),
         DB.empty) =
      (.answered (.RespondWithJSON StatusOK
          { Success := true
            Message := "Registration successful"
            AccessToken := "jwt"
            RefreshToken := EncodeToString (constBuf 1).bytes
            User := some { ID := 1, Username := "alice", PasswordHash := "" } }),
        .answered (.RespondWithError StatusInternalServerError "Failed to create user"),
        { users := [{ id := 1, username := "alice", password_hash := "bcrypt:pw1" }]
          refresh_tokens :=
            [{ id := 1, user_id := 1,
               token_hash := hashToken demoHandler (EncodeToString (constBuf 1).bytes),
               expires_at := 604800 * Second }]
          users_id_seq := 3
          refresh_tokens_id_seq := 2 }) ∧
    (interleave demoHandler (demoInputs 0 1) (demoInputs 0 2) [false, false, true, true]
        (.received (some { Username := "alice", Password := "pw1", ConfirmPassword := "pw1" }),
         .received (some { Username := "alice", Password := "pw2", ConfirmPassword := "pw2" }),
         DB.empty)).2.1 =
      .answered (.RespondWithError StatusConflict "Username already exists") := by
  decide

/-! ## `RefreshToken`: rotation -/

theorem RefreshToken_ok {h : AuthHandler} {inp : Inputs} {db : DB} {t a n : String}
    (hok : (RefreshToken h inp (some { RefreshToken := t }) db).2.tokens = some (a, n)) :
    ∃ (r : RefreshTokenRow) (username : String),
      t ≠ "" ∧
      db.selectRefreshTokenByHash (hashToken h t) = .row r ∧
      inp.nowExpiry ≤ r.expires_at ∧
      db.selectUsernameByID r.user_id = .row username ∧
      generateTokens h inp username r.user_id = (a, n, none) ∧
      storeRefreshToken h inp (db.deleteRefreshToken inp.execDelete r.id).1 r.user_id n =
        ((RefreshToken h inp (some { RefreshToken := t }) db).1, none) := by
  by_cases ht : t = ""
  · simp [RefreshToken, ht, Response.tokens] at hok
  · cases hsel : db.selectRefreshTokenByHash (hashToken h t) with
    | ErrNoRows => simp [RefreshToken, ht, hsel, Response.tokens] at hok
    | err e => simp [RefreshToken, ht, hsel, Response.tokens] at hok
    | row r =>
      cases hafter : After inp.nowExpiry r.expires_at with
      | true => simp [RefreshToken, ht, hsel, hafter, Response.tokens] at hok
      | false =>
        have hlive : inp.nowExpiry ≤ r.expires_at := by simpa [After] using hafter
        cases hname : db.selectUsernameByID r.user_id with
        | ErrNoRows => simp [RefreshToken, ht, hsel, hafter, hname, Response.tokens] at hok
        | err e => simp [RefreshToken, ht, hsel, hafter, hname, Response.tokens] at hok
        | row username =>
          rcases hgen : generateTokens h inp username r.user_id with ⟨a2, n2, _ | e⟩
          · rcases hst : storeRefreshToken h inp (db.deleteRefreshToken inp.execDelete r.id).1
                r.user_id n2 with ⟨db2, _ | e⟩
            · have hrun : RefreshToken h inp (some { RefreshToken := t }) db =
                  (db2, .RespondWithJSON StatusOK
                    { Success := true
                      Message := "Tokens refreshed successfully"
                      AccessToken := a2
                      RefreshToken := n2
                      User := some { ID := r.user_id, Username := username,
                                     PasswordHash := "" } }) := by
                simp only [RefreshToken, if_neg ht, hsel, hafter, hname, hgen, hst]
                simp
              rw [hrun] at hok ⊢
              simp only [Response.tokens, Option.some.injEq, Prod.mk.injEq] at hok
              obtain ⟨rfl, rfl⟩ := hok
              exact ⟨r, username, ht, rfl, hlive, hname, hgen, hst⟩
            · simp [RefreshToken, ht, hsel, hafter, hname, hgen, hst, Response.tokens] at hok
          · simp [RefreshToken, ht, hsel, hafter, hname, hgen, Response.tokens] at hok

theorem RefreshToken_no_record {h : AuthHandler} (inp : Inputs) {db : DB} {t : String}
    (ht : t ≠ "") (hno : ∀ r ∈ db.refresh_tokens, r.token_hash ≠ hashToken h t) :
    RefreshToken h inp (some { RefreshToken := t }) db =
      (db, .RespondWithError StatusUnauthorized "Invalid refresh token") := by
  simp only [RefreshToken, if_neg ht, selectRefreshTokenByHash_none hno]

/-- C1, a rotation that hands the same token back. `alice` registered and holds the
live token `sevens`; the database satisfies the constraints. The random source yields
the bytes that `sevens` encodes and the DELETE runs, so `RefreshToken(sevens)` succeeds
with `sevens` itself as the replacement, and a second `RefreshToken(sevens)` succeeds
again. -/
theorem RefreshToken_same_token_again :
    registeredDB.Valid ∧
    (RefreshToken demoHandler (demoInputs 100 7) (some { RefreshToken := sevens })
        registeredDB).2.tokens = some ("jwt", sevens) ∧
    (RefreshToken demoHandler (demoInputs 200 9) (some { RefreshToken := sevens })
        (RefreshToken demoHandler (demoInputs 100 7) (some { RefreshToken := sevens })
          registeredDB).1).2.code = StatusOK := by
  decide

/-- The rotation when the DELETE fails. `alice` holds the live token `sevens`; she sends
`RefreshToken(sevens)`, the random source yields thirty-two bytes 8 and `db.Exec` on the
DELETE returns an error, which line 241 discards. The answer is 200 with a new token,
the old record stays beside the new one, and a second `RefreshToken(sevens)` is
answered 200 again. -/
theorem RefreshToken_rotation_delete_fails :
    (RefreshToken demoHandler (deleteFails (demoInputs 100 8)) (some { RefreshToken := sevens })
        registeredDB).2.tokens = some ("jwt", EncodeToString (constBuf 8).bytes) ∧
    (RefreshToken demoHandler (deleteFails (demoInputs 100 8)) (some { RefreshToken := sevens })
        registeredDB).1.refresh_tokens =
      [{ id := 1, user_id := 1, token_hash := hashToken demoHandler sevens,
         expires_at := 604800 * Second },
       { id := 2, user_id := 1,
         token_hash := hashToken demoHandler (EncodeToString (constBuf 8).bytes),
         expires_at := 100 + 604800 * Second }] ∧
    (RefreshToken demoHandler (demoInputs 200 9) (some { RefreshToken := sevens })
        (RefreshToken demoHandler (deleteFails (demoInputs 100 8))
          (some { RefreshToken := sevens }) registeredDB).1).2.code = StatusOK := by
  decide

/-- C1, amended. In a database satisfying the constraints of `Migrate`, if
`RefreshToken(t)` succeeds with replacement token `n`, then `n` is the hex encoding of
the 32 bytes read from the random source; and if moreover `db.Exec` on the DELETE of
the old record returned no error and the digest of `n` differs from the digest of `t`,
a second `RefreshToken(t)` on the resulting database, whatever its inputs, is answered
401 "Invalid refresh token" and changes nothing. -/
theorem RefreshToken_single_use (h : AuthHandler) (inp1 inp2 : Inputs) (db : DB)
    (t a n : String) (hv : db.Valid)
    (hok : (RefreshToken h inp1 (some { RefreshToken := t }) db).2.tokens = some (a, n))
    (hdel : inp1.execDelete = none)
    (hfresh : hashToken h n ≠ hashToken h t) :
    (∃ buf : Buf32, inp1.randRead = .ok buf ∧ n = EncodeToString buf.bytes) ∧
    RefreshToken h inp2 (some { RefreshToken := t })
        (RefreshToken h inp1 (some { RefreshToken := t }) db).1 =
      ((RefreshToken h inp1 (some { RefreshToken := t }) db).1,
        .RespondWithError StatusUnauthorized "Invalid refresh token") := by
  obtain ⟨r, username, ht, hsel, _, _, hgen, hst⟩ := RefreshToken_ok hok
  refine ⟨generateTokens_ok hgen, ?_⟩
  obtain ⟨hmem, hhash⟩ := selectRefreshTokenByHash_mem hsel
  obtain ⟨_, _, _, hkey, _⟩ := hv
  apply RefreshToken_no_record inp2 ht
  generalize (RefreshToken h inp1 (some { RefreshToken := t }) db).1 = db1 at hst
  simp only [storeRefreshToken, hdel] at hst
  by_cases hacc : (db.deleteRefreshToken none r.id).1.acceptsRefreshToken
      { id := (db.deleteRefreshToken none r.id).1.refresh_tokens_id_seq, user_id := r.user_id,
        token_hash := hashToken h n, expires_at := Add inp1.nowStore (Hour * 24 * 7) } = true
  · rw [insertRefreshToken_accept hacc] at hst
    simp only [Prod.mk.injEq, and_true] at hst
    subst hst
    intro x hx
    rcases List.mem_append.mp hx with hx | hx
    · simp only [DB.deleteRefreshToken, List.mem_filter, decide_eq_true_eq] at hx
      intro hxt
      exact hx.2 (congrArg (fun y => y.id)
        (List.inj_on_of_nodup_map hkey hx.1 hmem (hxt.trans hhash.symm)))
    · rw [List.mem_singleton] at hx
      subst hx
      exact hfresh
  · rw [insertRefreshToken_reject hacc] at hst
    simp at hst

/-- Witness for `RefreshToken_single_use`: `alice` rotates the token `sevens` while the
random source yields thirty-two bytes 8 and the DELETE runs. -/
theorem RefreshToken_single_use_witness :
    registeredDB.Valid ∧
    RefreshToken demoHandler (demoInputs 200 9) (some { RefreshToken := sevens })
        (RefreshToken demoHandler (demoInputs 100 8) (some { RefreshToken := sevens })
          registeredDB).1 =
      ((RefreshToken demoHandler (demoInputs 100 8) (some { RefreshToken := sevens })
          registeredDB).1,
        .RespondWithError StatusUnauthorized "Invalid refresh token") :=
  ⟨by decide,
    (RefreshToken_single_use demoHandler (demoInputs 100 8) (demoInputs 200 9)
      registeredDB sevens "jwt" (EncodeToString (constBuf 8).bytes)
      (by decide) (by decide) rfl (by decide)).2⟩

/-! ## Instances of the statements above -/

/-- Witness for `Register_validation`: an empty username is refused with status 400 and
the database is left alone; a complete request on the same database is not. -/
theorem Register_validation_witness :
    ((Register demoHandler (demoInputs 0 0)
        (some { Username := "", Password := "pw", ConfirmPassword := "pw" }) aliceDB).1 = aliceDB ∧
      (∃ message, (Register demoHandler (demoInputs 0 0)
        (some { Username := "", Password := "pw", ConfirmPassword := "pw" }) aliceDB).2 =
          .RespondWithError StatusBadRequest message) ∧
      (Register demoHandler (demoInputs 0 0)
        (some { Username := "", Password := "pw", ConfirmPassword := "pw" }) aliceDB).2.code =
          StatusBadRequest ∧
      (Register demoHandler (demoInputs 0 0)
        (some { Username := "", Password := "pw", ConfirmPassword := "pw" }) aliceDB).2.tokens =
          none) ∧
    (Register demoHandler (demoInputs 0 0)
        (some { Username := "bob", Password := "pw", ConfirmPassword := "pw" }) aliceDB).2.code ≠
      StatusBadRequest :=
  ⟨(Register_validation demoHandler (demoInputs 0 0)
      { Username := "", Password := "pw", ConfirmPassword := "pw" } aliceDB).1 (Or.inl rfl),
    (Register_validation demoHandler (demoInputs 0 0)
      { Username := "bob", Password := "pw", ConfirmPassword := "pw" } aliceDB).2
      ⟨by decide, by decide, by decide, rfl⟩⟩

/-- Witness for `Register_conflict`: registering `alice` again, and the usernames after
two successful registrations. -/
theorem Register_conflict_witness :
    (Register demoHandler (demoInputs 0 0)
        (some { Username := "alice", Password := "x", ConfirmPassword := "x" }) aliceDB =
        (aliceDB, .RespondWithError StatusConflict "Username already exists") ∧
      (Register demoHandler (demoInputs 0 0)
        (some { Username := "alice", Password := "x", ConfirmPassword := "x" }) aliceDB).2.tokens =
        none) ∧
    ((serveAll demoHandler DB.empty
        [(demoInputs 0 1,
            .Register (some { Username := "alice", Password := "pw", ConfirmPassword := "pw" })),
         (demoInputs 5 2,
            .Register (some { Username := "bob", Password := "pw", ConfirmPassword := "pw" })),
         (demoInputs 9 3,
            .Register (some { Username := "alice", Password := "pw", ConfirmPassword := "pw" }))]
        ).users.map fun u => u.username).Nodup :=
  ⟨(Register_conflict demoHandler (demoInputs 0 0)
      { Username := "alice", Password := "x", ConfirmPassword := "x" } aliceDB []).1
      ⟨by decide, by decide, by decide, rfl,
        { id := 1, username := "alice", password_hash := "bcrypt:pw" }, by decide, rfl⟩,
    (Register_conflict demoHandler (demoInputs 0 0)
      { Username := "alice", Password := "x", ConfirmPassword := "x" } aliceDB _).2⟩

/-- Witness for `generateRefreshToken_spec`: thirty-two bytes 7 give the token `sevens`,
of 64 characters. -/
theorem generateRefreshToken_spec_witness :
    generateRefreshToken (demoInputs 0 7) = (EncodeToString (constBuf 7).bytes, none) ∧
    (generateRefreshToken (demoInputs 0 7)).1.length = 64 :=
  ⟨((generateRefreshToken_spec (demoInputs 0 7)).1 (constBuf 7) rfl).1,
    ((generateRefreshToken_spec (demoInputs 0 7)).1 (constBuf 7) rfl).2.1⟩

end handlers

end AuthService
